import Mathlib

/-!
Verification of the VeriFund core contracts.

This file gives a shallow embedding of the two core Solidity contracts:
  packages/contracts/contracts/core/MilestoneFunding.sol
  packages/contracts/contracts/core/QuadraticVoting.sol
and proves (or refutes) the specified properties about them.

Modelling conventions:
- addresses, token amounts, timestamps and bytes32 values are Nat
  (the zero address / zero bytes32 are modelled as 0);
- Solidity mappings are total functions with the zero-initialised default;
- each external function is a pure Lean function from the contract state and
  the call context (msg.sender, block.timestamp, arguments) to
  Except Error NewState: a revert is an error and, by EVM transaction
  atomicity, leaves the state unchanged;
- keccak256 outputs and Merkle proof verification results are abstracted as
  explicit parameters of the corresponding call (the contract only branches
  on them);
- the nonReentrant modifier needs no model: each embedded call is atomic and
  the embedded bodies make no external calls back into the contract.
-/

namespace VeriFund

/-- Helper: update a one-argument mapping at one key. -/
def updFn {β : Type} (f : Nat → β) (a : Nat) (b : β) : Nat → β :=
  fun x => if x = a then b else f x

/-- Helper: update a two-argument mapping at one key pair. -/
def upd2 {β : Type} (f : Nat → Nat → β) (a b : Nat) (v : β) : Nat → Nat → β :=
  fun x y => if x = a ∧ y = b then v else f x y

/-- Helper: update a three-argument mapping at one key triple. -/
def upd3 {β : Type} (f : Nat → Nat → Nat → β) (a b c : Nat) (v : β) :
    Nat → Nat → Nat → β :=
  fun x y z => if x = a ∧ y = b ∧ z = c then v else f x y z

/-- Helper: whether an Except value is a success. -/
def exIsOk {ε α : Type} : Except ε α → Bool
  | Except.ok _ => true
  | Except.error _ => false

/-- Helper: extract the success value of an Except, with a fallback. -/
def exGet {ε α : Type} (d : α) : Except ε α → α
  | Except.ok a => a
  | Except.error _ => d

/-! ### MilestoneFunding: constants (MilestoneFunding.sol lines 56-60, 70) -/

/-- REVIEWER_STAKE_REQUIRED = 1000e18. -/
def REVIEWER_STAKE_REQUIRED : Nat := 1000 * 10 ^ 18

/-- AUTO_RELEASE_DELAY = 7 days (in seconds). -/
def AUTO_RELEASE_DELAY : Nat := 7 * 24 * 60 * 60

/-- MIN_REVIEWERS = 2. -/
def MIN_REVIEWERS : Nat := 2

/-- APPROVAL_THRESHOLD = 66 (interpreted as a percentage). -/
def APPROVAL_THRESHOLD : Nat := 66

/-- platformFeeRate = 200 (2% in basis points); the contract has no setter
for it, so it is modelled as a constant. -/
def platformFeeRate : Nat := 200

/-! ### MilestoneFunding: data model (MilestoneFunding.sol lines 21-66) -/

inductive MilestoneStatus
  | Pending
  | InReview
  | Approved
  | Rejected
  | Disputed
  | Released
deriving DecidableEq

structure Milestone where
  description : String
  fundingAmount : Nat
  deadline : Nat
  deliverableHash : String
  status : MilestoneStatus
  assignedReviewers : List Nat
  approvalCount : Nat
  submissionTime : Nat
  autoReleaseEnabled : Bool
  autoReleaseTime : Nat

structure Project where
  creator : Nat
  title : String
  description : String
  fundingToken : Nat
  totalFunding : Nat
  releasedFunding : Nat
  milestoneCount : Nat
  active : Bool
  createdAt : Nat
  milestones : Nat → Milestone

structure ReviewerStake where
  stakedAmount : Nat
  successfulReviews : Nat
  totalReviews : Nat
  active : Bool

/-- Zero-initialised milestone (Solidity storage default). -/
def defMilestone : Milestone :=
  { description := ""
    fundingAmount := 0
    deadline := 0
    deliverableHash := ""
    status := MilestoneStatus.Pending
    assignedReviewers := []
    approvalCount := 0
    submissionTime := 0
    autoReleaseEnabled := false
    autoReleaseTime := 0 }

/-- Zero-initialised project (Solidity storage default). -/
def defProject : Project :=
  { creator := 0
    title := ""
    description := ""
    fundingToken := 0
    totalFunding := 0
    releasedFunding := 0
    milestoneCount := 0
    active := false
    createdAt := 0
    milestones := fun _ => defMilestone }

/-- Zero-initialised reviewer stake record. -/
def defStake : ReviewerStake :=
  { stakedAmount := 0, successfulReviews := 0, totalReviews := 0, active := false }

/-- Contract storage of MilestoneFunding (lines 62-70).  The REVIEWER_ROLE
grant set of AccessControl is modelled as the boolean map hasReviewerRole. -/
structure MFState where
  nextProjectId : Nat
  projects : Nat → Project
  reviewerStakes : Nat → ReviewerStake
  reviewerVotes : Nat → Nat → Nat → Bool
  hasReviewerRole : Nat → Bool
  stakeToken : Nat
  treasury : Nat

inductive MFError
  | minMilestones
  | maxMilestones
  | lengthMismatch
  | invalidDeadline
  | projectNotActive
  | onlyCreator
  | invalidStatus
  | notInReview
  | alreadyReviewed
  | notAssignedReviewer
  | missingReviewerRole
  | reviewerNotActive
  | cannotRelease
  | alreadyReleased
  | alreadyActiveReviewer
deriving DecidableEq

/-- The state produced by the one-shot initializer (lines 88-100). -/
def initMFState (tok treas : Nat) : MFState :=
  { nextProjectId := 1
    projects := fun _ => defProject
    reviewerStakes := fun _ => defStake
    reviewerVotes := fun _ _ _ => false
    hasReviewerRole := fun _ => false
    stakeToken := tok
    treasury := treas }

/-- One iteration of the milestone-writing loop of createProject
(lines 133-145): the listed fields are assigned, all others keep their
current storage value. -/
def buildMilestone (old : Milestone) (amt : Nat) (d : String) (dl : Nat) : Milestone :=
  { old with
    description := d
    fundingAmount := amt
    deadline := dl
    status := MilestoneStatus.Pending
    autoReleaseEnabled := true
    autoReleaseTime := dl + AUTO_RELEASE_DELAY }

/-- Zip of the three milestone argument arrays. -/
def zip3 : List Nat → List String → List Nat → List (Nat × String × Nat)
  | a :: as, b :: bs, c :: cs => (a, b, c) :: zip3 as bs cs
  | _, _, _ => []

/-- The milestone map after the createProject write loop: index i gets the
data of the i-th entries of the argument arrays, other indices are
untouched. -/
def writeMilestones (f : Nat → Milestone) (entries : List (Nat × String × Nat)) :
    Nat → Milestone :=
  fun j =>
    match entries.get? j with
    | some (amt, d, dl) => buildMilestone (f j) amt d dl
    | none => f j

/-- createProject (lines 105-150).  Returns the new state and the allocated
projectId.  The per-milestone deadline check of the loop is hoisted in front
of the writes; a revert rolls the whole transaction back, so the observable
behaviour is identical. -/
def createProject (s : MFState) (sender now : Nat) (title descr : String)
    (fundingToken : Nat) (milestoneAmounts : List Nat)
    (milestoneDescriptions : List String) (milestoneDeadlines : List Nat) :
    Except MFError (MFState × Nat) :=
  if milestoneAmounts.length < 2 then Except.error MFError.minMilestones
  else if 8 < milestoneAmounts.length then Except.error MFError.maxMilestones
  else if ¬(milestoneAmounts.length = milestoneDescriptions.length ∧
      milestoneDescriptions.length = milestoneDeadlines.length) then
    Except.error MFError.lengthMismatch
  else if ¬ milestoneDeadlines.all (fun d => now < d) then
    Except.error MFError.invalidDeadline
  else
    let pid := s.nextProjectId
    let p := s.projects pid
    let p' : Project :=
      { p with
        creator := sender
        title := title
        description := descr
        fundingToken := fundingToken
        milestoneCount := milestoneAmounts.length
        active := true
        createdAt := now
        milestones :=
          writeMilestones p.milestones
            (zip3 milestoneAmounts milestoneDescriptions milestoneDeadlines)
        totalFunding := milestoneAmounts.sum }
    Except.ok ({ s with nextProjectId := pid + 1, projects := updFn s.projects pid p' },
      pid)

/-- fundProject (lines 155-163): the token transfer is an external effect;
no contract storage is mutated. -/
def fundProject (s : MFState) (projectId _amount : Nat) : Except MFError MFState :=
  if ¬((s.projects projectId).active = true) then Except.error MFError.projectNotActive
  else Except.ok s

/-- submitMilestone (lines 168-187).  _assignReviewers (lines 292-301) is
inlined: it allocates new address[](MIN_REVIEWERS), an array of
MIN_REVIEWERS zero addresses, and performs no further assignment. -/
def submitMilestone (s : MFState) (sender now : Nat) (projectId milestoneId : Nat)
    (deliverableHash : String) : Except MFError MFState :=
  let p := s.projects projectId
  if ¬(sender = p.creator) then Except.error MFError.onlyCreator
  else
    let m := p.milestones milestoneId
    if ¬(m.status = MilestoneStatus.Pending) then Except.error MFError.invalidStatus
    else
      let m' : Milestone :=
        { m with
          deliverableHash := deliverableHash
          status := MilestoneStatus.InReview
          submissionTime := now
          assignedReviewers := List.replicate MIN_REVIEWERS 0 }
      Except.ok { s with
        projects := updFn s.projects projectId
          { p with milestones := updFn p.milestones milestoneId m' } }

/-- _checkMilestoneApproval (lines 306-314): requiredApprovals is computed
with Solidity integer (floor) division. -/
def checkMilestoneApproval (m : Milestone) : Milestone :=
  let requiredApprovals := m.assignedReviewers.length * APPROVAL_THRESHOLD / 100
  if requiredApprovals ≤ m.approvalCount then
    { m with status := MilestoneStatus.Approved }
  else m

/-- reviewMilestone (lines 192-226).  The comments argument is accepted and
ignored, as in the source. -/
def reviewMilestone (s : MFState) (sender : Nat) (projectId milestoneId : Nat)
    (approved : Bool) (_comments : String) : Except MFError MFState :=
  if ¬(s.hasReviewerRole sender = true) then Except.error MFError.missingReviewerRole
  else if ¬((s.reviewerStakes sender).active = true) then
    Except.error MFError.reviewerNotActive
  else
    let p := s.projects projectId
    let m := p.milestones milestoneId
    if ¬(m.status = MilestoneStatus.InReview) then Except.error MFError.notInReview
    else if s.reviewerVotes projectId milestoneId sender = true then
      Except.error MFError.alreadyReviewed
    else if ¬(sender ∈ m.assignedReviewers) then
      Except.error MFError.notAssignedReviewer
    else
      let m1 := if approved then { m with approvalCount := m.approvalCount + 1 } else m
      let m2 := checkMilestoneApproval m1
      let rs := s.reviewerStakes sender
      Except.ok { s with
        reviewerVotes := upd3 s.reviewerVotes projectId milestoneId sender true
        reviewerStakes := updFn s.reviewerStakes sender
          { rs with totalReviews := rs.totalReviews + 1 }
        projects := updFn s.projects projectId
          { p with milestones := updFn p.milestones milestoneId m2 } }

/-- releaseMilestoneFunds (lines 231-267).  On success it also returns the
two outgoing token transfers (recipient, amount): creator payout and
treasury fee.  _rewardReviewers (lines 319-322) has an empty body. -/
def releaseMilestoneFunds (s : MFState) (now : Nat) (projectId milestoneId : Nat) :
    Except MFError (MFState × List (Nat × Nat)) :=
  let p := s.projects projectId
  let m := p.milestones milestoneId
  let res : Bool × Milestone :=
    if m.status = MilestoneStatus.Approved then (true, m)
    else if m.autoReleaseEnabled = true ∧ m.autoReleaseTime < now ∧
        m.status = MilestoneStatus.InReview then
      (true, { m with status := MilestoneStatus.Approved })
    else (false, m)
  if ¬(res.1 = true) then Except.error MFError.cannotRelease
  else if res.2.status = MilestoneStatus.Released then Except.error MFError.alreadyReleased
  else
    let releaseAmount := res.2.fundingAmount
    let platformFee := releaseAmount * platformFeeRate / 10000
    let creatorAmount := releaseAmount - platformFee
    let m' := { res.2 with status := MilestoneStatus.Released }
    let p' := { p with
      milestones := updFn p.milestones milestoneId m'
      releasedFunding := p.releasedFunding + releaseAmount }
    Except.ok ({ s with projects := updFn s.projects projectId p' },
      [(p.creator, creatorAmount), (s.treasury, platformFee)])

/-- stakeAsReviewer (lines 272-287): the stake transfer is an external
effect; on success the stake record is written and REVIEWER_ROLE granted. -/
def stakeAsReviewer (s : MFState) (sender : Nat) : Except MFError MFState :=
  if (s.reviewerStakes sender).active = true then
    Except.error MFError.alreadyActiveReviewer
  else
    Except.ok { s with
      reviewerStakes := updFn s.reviewerStakes sender
        { stakedAmount := REVIEWER_STAKE_REQUIRED
          successfulReviews := 0
          totalReviews := 0
          active := true }
      hasReviewerRole := updFn s.hasReviewerRole sender true }

/-! ### QuadraticVoting: constants (QuadraticVoting.sol lines 45-47) -/

/-- CREDITS_PER_ROUND = 100. -/
def CREDITS_PER_ROUND : Nat := 100

/-- MIN_VOTES_THRESHOLD = 50. -/
def MIN_VOTES_THRESHOLD : Nat := 50

/-- MAX_VOTES_PER_PROPOSAL = 10. -/
def MAX_VOTES_PER_PROPOSAL : Nat := 10

/-! ### QuadraticVoting: data model (QuadraticVoting.sol lines 20-53) -/

structure VotingRound where
  startTime : Nat
  endTime : Nat
  commitEndTime : Nat
  totalCredits : Nat
  totalProposals : Nat
  finalized : Bool
  merkleRoot : Nat
deriving DecidableEq

structure Vote where
  commitment : Nat
  votesRevealed : Nat
  revealed : Bool
  counted : Bool
deriving DecidableEq

structure ProposalResult where
  totalVotes : Nat
  quadraticScore : Nat
  uniqueVoters : Nat
  qualified : Bool
deriving DecidableEq

/-- Zero-initialised voting round (Solidity storage default). -/
def defRound : VotingRound :=
  { startTime := 0, endTime := 0, commitEndTime := 0, totalCredits := 0
    totalProposals := 0, finalized := false, merkleRoot := 0 }

/-- Zero-initialised vote record. -/
def defVote : Vote :=
  { commitment := 0, votesRevealed := 0, revealed := false, counted := false }

/-- Zero-initialised proposal result. -/
def defResult : ProposalResult :=
  { totalVotes := 0, quadraticScore := 0, uniqueVoters := 0, qualified := false }

/-- Contract storage of QuadraticVoting (lines 49-53) together with the
Pausable flag and the ADMIN_ROLE grant set of AccessControl. -/
structure QVState where
  paused : Bool
  hasAdminRole : Nat → Bool
  currentRoundId : Nat
  votingRounds : Nat → VotingRound
  votes : Nat → Nat → Vote
  results : Nat → Nat → ProposalResult
  voterReputationScore : Nat → Nat

inductive QVError
  | missingAdminRole
  | enforcedPause
  | invalidVotingPhase
  | invalidVoteCount
  | alreadyVoted
  | invalidCommitment
  | insufficientCredits
  | notQualifiedVoter
  | prevRoundNotFinalized
  | votingStillActive
  | alreadyFinalized
  | alreadyPaused
  | notPaused
deriving DecidableEq

/-- The state produced by the one-shot initializer (lines 69-76): not
paused, no round yet, admin holds ADMIN_ROLE. -/
def initQVState (admin : Nat) : QVState :=
  { paused := false
    hasAdminRole := updFn (fun _ => false) admin true
    currentRoundId := 0
    votingRounds := fun _ => defRound
    votes := fun _ _ => defVote
    results := fun _ _ => defResult
    voterReputationScore := fun _ => 0 }

/-- _sqrt (lines 236-245), the Babylonian/Newton loop:
while (z < y) { y = z; z = (x / z + z) / 2; }.  The loop measure is y,
which strictly decreases on every iteration. -/
def sqrtLoop (x z y : Nat) : Nat :=
  if h : z < y then sqrtLoop x ((x / z + z) / 2) z else y
termination_by y
decreasing_by exact h

/-- _sqrt (lines 236-245): 0 for input 0, otherwise the Newton loop seeded
with z = (x + 1) / 2, y = x. -/
def integerSqrt (x : Nat) : Nat :=
  if x = 0 then 0 else sqrtLoop x ((x + 1) / 2) x

/-- startVotingRound (lines 84-108).  Note this entry point is guarded by
onlyRole(ADMIN_ROLE) but NOT by whenNotPaused. -/
def startVotingRound (s : QVState) (sender now duration commitDuration root : Nat) :
    Except QVError QVState :=
  if ¬(s.hasAdminRole sender = true) then Except.error QVError.missingAdminRole
  else if ¬(s.currentRoundId = 0 ∨ (s.votingRounds s.currentRoundId).finalized = true) then
    Except.error QVError.prevRoundNotFinalized
  else
    let rid := s.currentRoundId + 1
    Except.ok { s with
      currentRoundId := rid
      votingRounds := updFn s.votingRounds rid
        { startTime := now
          endTime := now + duration
          commitEndTime := now + commitDuration
          totalCredits := 0
          totalProposals := 0
          finalized := false
          merkleRoot := root } }

/-- commitVote (lines 115-137).  The eligible argument stands for the result
of _verifyVoter(msg.sender, merkleProof, round.merkleRoot) (lines 224-231),
which the body only branches on. -/
def commitVote (s : QVState) (sender now commitment : Nat) (eligible : Bool) :
    Except QVError QVState :=
  if s.paused = true then Except.error QVError.enforcedPause
  else
    let round := s.votingRounds s.currentRoundId
    if round.commitEndTime < now ∨ now < round.startTime then
      Except.error QVError.invalidVotingPhase
    else if ¬(eligible = true) then Except.error QVError.notQualifiedVoter
    else if ¬((s.votes s.currentRoundId sender).commitment = 0) then
      Except.error QVError.alreadyVoted
    else
      let v := s.votes s.currentRoundId sender
      Except.ok { s with
        votes := upd2 s.votes s.currentRoundId sender { v with commitment := commitment } }

/-- revealVote (lines 145-195).  The computedHash argument stands for
keccak256(abi.encodePacked(proposalId, voteCount, nonce)) (line 162), which
the body only compares with the stored commitment. -/
def revealVote (s : QVState) (sender now proposalId voteCount computedHash : Nat) :
    Except QVError QVState :=
  if s.paused = true then Except.error QVError.enforcedPause
  else
    let round := s.votingRounds s.currentRoundId
    let vote := s.votes s.currentRoundId sender
    if now < round.commitEndTime ∨ round.endTime < now then
      Except.error QVError.invalidVotingPhase
    else if vote.revealed = true then Except.error QVError.alreadyVoted
    else if ¬(computedHash = vote.commitment) then Except.error QVError.invalidCommitment
    else if voteCount = 0 ∨ MAX_VOTES_PER_PROPOSAL < voteCount then
      Except.error QVError.invalidVoteCount
    else
      let cost := voteCount * voteCount
      if CREDITS_PER_ROUND < cost then Except.error QVError.insufficientCredits
      else
        let v' := { vote with revealed := true, votesRevealed := voteCount }
        let r := s.results s.currentRoundId proposalId
        let r' := { r with
          totalVotes := r.totalVotes + voteCount
          quadraticScore := r.quadraticScore + integerSqrt (voteCount * 10 ^ 18)
          uniqueVoters := r.uniqueVoters + 1 }
        let rd' := { round with totalCredits := round.totalCredits + cost }
        Except.ok { s with
          votes := upd2 s.votes s.currentRoundId sender v'
          results := upd2 s.results s.currentRoundId proposalId r'
          votingRounds := updFn s.votingRounds s.currentRoundId rd'
          voterReputationScore := updFn s.voterReputationScore sender
            (s.voterReputationScore sender + 1) }

/-- finalizeRound (lines 200-208). Guarded by onlyRole(ADMIN_ROLE), not by
whenNotPaused. -/
def finalizeRound (s : QVState) (sender now : Nat) : Except QVError QVState :=
  if ¬(s.hasAdminRole sender = true) then Except.error QVError.missingAdminRole
  else
    let round := s.votingRounds s.currentRoundId
    if ¬(round.endTime < now) then Except.error QVError.votingStillActive
    else if round.finalized = true then Except.error QVError.alreadyFinalized
    else
      Except.ok { s with
        votingRounds := updFn s.votingRounds s.currentRoundId
          { round with finalized := true } }

/-- pause (lines 248-250); OpenZeppelin _pause reverts when already paused. -/
def pauseOp (s : QVState) (sender : Nat) : Except QVError QVState :=
  if ¬(s.hasAdminRole sender = true) then Except.error QVError.missingAdminRole
  else if s.paused = true then Except.error QVError.alreadyPaused
  else Except.ok { s with paused := true }

/-- unpause (lines 252-254); OpenZeppelin _unpause reverts when not paused. -/
def unpauseOp (s : QVState) (sender : Nat) : Except QVError QVState :=
  if ¬(s.hasAdminRole sender = true) then Except.error QVError.missingAdminRole
  else if s.paused = false then Except.error QVError.notPaused
  else Except.ok { s with paused := false }

/-! ### Transition systems and reachable states

A step is one successful externally-submitted transaction (reverted calls
change nothing).  msg.sender is never the zero address in an external call,
hence the sender ≠ 0 side conditions.  The rolesStep constructors
over-approximate the inherited AccessControl grantRole/revokeRole admin
entry points by allowing the role map to be rewritten arbitrarily. -/

inductive MFStep : MFState → MFState → Prop
  | createStep (s s' : MFState) (sender now fundingToken pid : Nat)
      (title descr : String) (amounts : List Nat) (descrs : List String)
      (deadlines : List Nat) :
      sender ≠ 0 →
      createProject s sender now title descr fundingToken amounts descrs deadlines =
        Except.ok (s', pid) →
      MFStep s s'
  | fundStep (s s' : MFState) (pid amt : Nat) :
      fundProject s pid amt = Except.ok s' → MFStep s s'
  | submitStep (s s' : MFState) (sender now pid mid : Nat) (dh : String) :
      sender ≠ 0 →
      submitMilestone s sender now pid mid dh = Except.ok s' →
      MFStep s s'
  | reviewStep (s s' : MFState) (sender pid mid : Nat) (ap : Bool) (c : String) :
      sender ≠ 0 →
      reviewMilestone s sender pid mid ap c = Except.ok s' →
      MFStep s s'
  | releaseStep (s s' : MFState) (now pid mid : Nat) (outs : List (Nat × Nat)) :
      releaseMilestoneFunds s now pid mid = Except.ok (s', outs) →
      MFStep s s'
  | stakeStep (s s' : MFState) (sender : Nat) :
      sender ≠ 0 →
      stakeAsReviewer s sender = Except.ok s' →
      MFStep s s'
  | rolesStep (s : MFState) (f : Nat → Bool) :
      MFStep s { s with hasReviewerRole := f }

/-- States of MilestoneFunding reachable from a freshly initialised
contract by any sequence of successful transactions. -/
inductive MFReachable : MFState → Prop
  | start (tok treas : Nat) : MFReachable (initMFState tok treas)
  | next (s s' : MFState) : MFReachable s → MFStep s s' → MFReachable s'

inductive QVStep : QVState → QVState → Prop
  | startStep (s s' : QVState) (sender now dur cdur root : Nat) :
      startVotingRound s sender now dur cdur root = Except.ok s' → QVStep s s'
  | commitStep (s s' : QVState) (sender now commitment : Nat) (eligible : Bool) :
      commitVote s sender now commitment eligible = Except.ok s' → QVStep s s'
  | revealStep (s s' : QVState) (sender now proposalId voteCount computedHash : Nat) :
      revealVote s sender now proposalId voteCount computedHash = Except.ok s' →
      QVStep s s'
  | finalizeStep (s s' : QVState) (sender now : Nat) :
      finalizeRound s sender now = Except.ok s' → QVStep s s'
  | pauseStep (s s' : QVState) (sender : Nat) :
      pauseOp s sender = Except.ok s' → QVStep s s'
  | unpauseStep (s s' : QVState) (sender : Nat) :
      unpauseOp s sender = Except.ok s' → QVStep s s'
  | rolesStep (s : QVState) (f : Nat → Bool) :
      QVStep s { s with hasAdminRole := f }

/-- States of QuadraticVoting reachable from a freshly initialised contract
by any sequence of successful transactions. -/
inductive QVReachable : QVState → Prop
  | start (admin : Nat) : QVReachable (initQVState admin)
  | next (s s' : QVState) : QVReachable s → QVStep s s' → QVReachable s'

/-! ### Invariants -/

/-- The sum of fundingAmount over the milestones of a project whose status
is Released. -/
def milestoneReleasedSum (p : Project) : Nat :=
  (Finset.range p.milestoneCount).sum fun i =>
    if (p.milestones i).status = MilestoneStatus.Released then
      (p.milestones i).fundingAmount
    else 0

/-- Inductive invariant of MilestoneFunding. -/
structure MFInv (s : MFState) : Prop where
  fresh : ∀ pid, s.nextProjectId ≤ pid → s.projects pid = defProject
  approvals : ∀ pid mid, ((s.projects pid).milestones mid).approvalCount = 0
  panel : ∀ pid mid,
    ((s.projects pid).milestones mid).assignedReviewers = [] ∨
    ((s.projects pid).milestones mid).assignedReviewers = List.replicate MIN_REVIEWERS 0
  statusOk : ∀ pid mid,
    ((s.projects pid).milestones mid).status ≠ MilestoneStatus.Approved ∧
    ((s.projects pid).milestones mid).status ≠ MilestoneStatus.Rejected ∧
    ((s.projects pid).milestones mid).status ≠ MilestoneStatus.Disputed
  phantom : ∀ pid mid, (s.projects pid).milestoneCount ≤ mid →
    ((s.projects pid).milestones mid).autoReleaseEnabled = false ∧
    ((s.projects pid).milestones mid).status ≠ MilestoneStatus.Released
  released : ∀ pid,
    (s.projects pid).releasedFunding = milestoneReleasedSum (s.projects pid)

/-- Inductive invariant of QuadraticVoting. -/
structure QVInv (s : QVState) : Prop where
  revealedBounds : ∀ r v, (s.votes r v).revealed = true →
    1 ≤ (s.votes r v).votesRevealed ∧
    (s.votes r v).votesRevealed ≤ MAX_VOTES_PER_PROPOSAL
  priorFinalized : ∀ id, 1 ≤ id → id < s.currentRoundId →
    (s.votingRounds id).finalized = true

/-! ### Map-update evaluation lemmas -/

lemma updFn_eval {β : Type} (f : Nat → β) (a : Nat) (b : β) (x : Nat) :
    updFn f a b x = if x = a then b else f x := rfl

lemma upd2_eval {β : Type} (f : Nat → Nat → β) (a b : Nat) (v : β) (x y : Nat) :
    upd2 f a b v x y = if x = a ∧ y = b then v else f x y := rfl

lemma upd3_eval {β : Type} (f : Nat → Nat → Nat → β) (a b c : Nat) (v : β)
    (x y z : Nat) :
    upd3 f a b c v x y z = if x = a ∧ y = b ∧ z = c then v else f x y z := rfl

/-! ### Preservation of the QuadraticVoting invariant -/

lemma qvInv_init (admin : Nat) : QVInv (initQVState admin) := by
  constructor
  · intro r v hr
    simp [initQVState, defVote] at hr
  · intro id h1 h2
    simp [initQVState] at h2

lemma qvInv_step {s s' : QVState} (inv : QVInv s) (st : QVStep s s') : QVInv s' := by
  cases st
  case startStep =>
      rename_i h
      simp only [startVotingRound] at h
      split at h
      · exact absurd h (by simp)
      · split at h
        · exact absurd h (by simp)
        · rename_i hrole hguard
          injection h with h
          subst h
          constructor
          · intro r v hr
            exact inv.revealedBounds r v hr
          · intro id h1 h2
            have h2' : id < s.currentRoundId + 1 := h2
            show (updFn s.votingRounds (s.currentRoundId + 1) _ id).finalized = true
            rw [updFn_eval]
            rw [if_neg (by omega)]
            have hg := not_not.mp hguard
            by_cases hid : id = s.currentRoundId
            · rcases hg with hg0 | hgf
              · omega
              · rw [hid]; exact hgf
            · exact inv.priorFinalized id h1 (by omega)
  case commitStep =>
      rename_i sender now commitment eligible h
      simp only [commitVote] at h
      split at h
      · exact absurd h (by simp)
      · split at h
        · exact absurd h (by simp)
        · split at h
          · exact absurd h (by simp)
          · split at h
            · exact absurd h (by simp)
            · injection h with h
              subst h
              constructor
              · intro r v hr
                simp only [upd2] at hr ⊢
                by_cases hc : r = s.currentRoundId ∧ v = sender
                · rw [if_pos hc] at hr ⊢
                  exact inv.revealedBounds s.currentRoundId sender hr
                · rw [if_neg hc] at hr ⊢
                  exact inv.revealedBounds r v hr
              · intro id h1 h2
                exact inv.priorFinalized id h1 h2
  case revealStep =>
      rename_i h
      simp only [revealVote] at h
      split at h
      · exact absurd h (by simp)
      · split at h
        · exact absurd h (by simp)
        · split at h
          · exact absurd h (by simp)
          · split at h
            · exact absurd h (by simp)
            · split at h
              · exact absurd h (by simp)
              · split at h
                · exact absurd h (by simp)
                · rename_i hpause hphase hrev hcomm hcount hcost
                  injection h with h
                  subst h
                  rename_i sender now proposalId voteCount computedHash
                  constructor
                  · intro r v hr
                    simp only [upd2] at hr ⊢
                    by_cases hc : r = s.currentRoundId ∧ v = sender
                    · rw [if_pos hc] at hr ⊢
                      simp only [MAX_VOTES_PER_PROPOSAL] at hcount
                      refine ⟨?_, ?_⟩
                      · show 1 ≤ voteCount
                        omega
                      · show voteCount ≤ MAX_VOTES_PER_PROPOSAL
                        simp only [MAX_VOTES_PER_PROPOSAL]
                        omega
                    · rw [if_neg hc] at hr ⊢
                      exact inv.revealedBounds r v hr
                  · intro id h1 h2
                    have h2' : id < s.currentRoundId := h2
                    simp only [updFn]
                    rw [if_neg (by omega)]
                    exact inv.priorFinalized id h1 h2'
  case finalizeStep =>
      rename_i h
      simp only [finalizeRound] at h
      split at h
      · exact absurd h (by simp)
      · split at h
        · exact absurd h (by simp)
        · split at h
          · exact absurd h (by simp)
          · injection h with h
            subst h
            constructor
            · intro r v hr
              exact inv.revealedBounds r v hr
            · intro id h1 h2
              have h2' : id < s.currentRoundId := h2
              show (updFn s.votingRounds s.currentRoundId _ id).finalized = true
              rw [updFn_eval, if_neg (by omega)]
              exact inv.priorFinalized id h1 h2'
  case pauseStep =>
      rename_i h
      simp only [pauseOp] at h
      split at h
      · exact absurd h (by simp)
      · split at h
        · exact absurd h (by simp)
        · injection h with h
          subst h
          exact ⟨fun r v hr => inv.revealedBounds r v hr,
            fun id h1 h2 => inv.priorFinalized id h1 h2⟩
  case unpauseStep =>
      rename_i h
      simp only [unpauseOp] at h
      split at h
      · exact absurd h (by simp)
      · split at h
        · exact absurd h (by simp)
        · injection h with h
          subst h
          exact ⟨fun r v hr => inv.revealedBounds r v hr,
            fun id h1 h2 => inv.priorFinalized id h1 h2⟩
  case rolesStep =>
      exact ⟨fun r v hr => inv.revealedBounds r v hr,
        fun id h1 h2 => inv.priorFinalized id h1 h2⟩

lemma qvInv_reachable {s : QVState} (h : QVReachable s) : QVInv s := by
  induction h with
  | start admin => exact qvInv_init admin
  | next s s' _ st ih => exact qvInv_step ih st

/-! ### Preservation of the MilestoneFunding invariant -/

/-- Contribution of one milestone to the released-funding total. -/
def relContrib (m : Milestone) : Nat :=
  if m.status = MilestoneStatus.Released then m.fundingAmount else 0

lemma milestoneReleasedSum_eq (p : Project) :
    milestoneReleasedSum p =
      (Finset.range p.milestoneCount).sum fun i => relContrib (p.milestones i) := rfl

lemma zip3_length (as : List Nat) (bs : List String) (cs : List Nat)
    (h1 : as.length = bs.length) (h2 : bs.length = cs.length) :
    (zip3 as bs cs).length = as.length := by
  induction as generalizing bs cs with
  | nil => cases bs <;> cases cs <;> simp [zip3]
  | cons a as ih =>
    cases bs with
    | nil => simp at h1
    | cons b bs =>
      cases cs with
      | nil => simp at h2
      | cons c cs =>
        simp only [zip3, List.length_cons]
        rw [ih bs cs (by simpa using h1) (by simpa using h2)]

lemma writeMilestones_fields (f : Nat → Milestone) (es : List (Nat × String × Nat))
    (j : Nat) :
    (writeMilestones f es j).approvalCount = (f j).approvalCount ∧
    (writeMilestones f es j).assignedReviewers = (f j).assignedReviewers ∧
    ((writeMilestones f es j).status = (f j).status ∨
      (writeMilestones f es j).status = MilestoneStatus.Pending) := by
  unfold writeMilestones
  rcases h : es.get? j with _ | ⟨⟨amt, d, dl⟩⟩ <;> simp [h, buildMilestone]

lemma writeMilestones_out (f : Nat → Milestone) (es : List (Nat × String × Nat))
    (j : Nat) (h : es.length ≤ j) : writeMilestones f es j = f j := by
  unfold writeMilestones
  have hn : es.get? j = none := List.get?_eq_none.mpr h
  rw [hn]

lemma sum_relContrib_update_zero (g : Nat → Milestone) (n mid : Nat) (m' : Milestone)
    (hmid : mid < n) (hold : relContrib (g mid) = 0) :
    ((Finset.range n).sum fun i => relContrib (updFn g mid m' i)) =
      ((Finset.range n).sum fun i => relContrib (g i)) + relContrib m' := by
  have hmem : mid ∈ Finset.range n := Finset.mem_range.mpr hmid
  have h1 := Finset.add_sum_erase (Finset.range n)
    (fun i => relContrib (updFn g mid m' i)) hmem
  have h2 := Finset.add_sum_erase (Finset.range n) (fun i => relContrib (g i)) hmem
  have h3 : (((Finset.range n).erase mid).sum fun i => relContrib (updFn g mid m' i)) =
      ((Finset.range n).erase mid).sum fun i => relContrib (g i) := by
    refine Finset.sum_congr rfl ?_
    intro i hi
    have hne : i ≠ mid := Finset.ne_of_mem_erase hi
    rw [updFn_eval, if_neg hne]
  have h4 : relContrib (updFn g mid m' mid) = relContrib m' := by
    rw [updFn_eval, if_pos rfl]
  dsimp only at h1 h2 h3 h4
  omega

lemma sum_relContrib_update_out (g : Nat → Milestone) (n mid : Nat) (m' : Milestone)
    (h : n ≤ mid) :
    ((Finset.range n).sum fun i => relContrib (updFn g mid m' i)) =
      (Finset.range n).sum fun i => relContrib (g i) := by
  refine Finset.sum_congr rfl ?_
  intro i hi
  have hi' := Finset.mem_range.mp hi
  rw [updFn_eval, if_neg (by omega)]

lemma mfInv_init (tok treas : Nat) : MFInv (initMFState tok treas) := by
  constructor
  · intro pid _
    rfl
  · intro pid mid
    rfl
  · intro pid mid
    left
    rfl
  · intro pid mid
    refine ⟨?_, ?_, ?_⟩ <;> simp [initMFState, defProject, defMilestone]
  · intro pid mid _
    refine ⟨rfl, ?_⟩
    simp [initMFState, defProject, defMilestone]
  · intro pid
    simp [initMFState, defProject, milestoneReleasedSum]

lemma mfInv_step {s s' : MFState} (inv : MFInv s) (st : MFStep s s') : MFInv s' := by
  cases st
  case createStep =>
    rename_i sender now fundingToken pidr title descr amounts descrs deadlines hs h
    simp only [createProject] at h
    split at h
    · exact absurd h (by simp)
    split at h
    · exact absurd h (by simp)
    split at h
    · exact absurd h (by simp)
    split at h
    · exact absurd h (by simp)
    rename_i hlen2 hlen8 hlens hdl
    obtain ⟨hl1, hl2⟩ := not_not.mp hlens
    injection h with h
    injection h with hS hP
    subst hS
    have hfresh0 : s.projects s.nextProjectId = defProject := inv.fresh _ (le_refl _)
    have hES : (zip3 amounts descrs deadlines).length = amounts.length :=
      zip3_length amounts descrs deadlines hl1 hl2
    constructor
    · intro pid hp
      have hp' : s.nextProjectId + 1 ≤ pid := hp
      simp only [updFn]
      rw [if_neg (by omega)]
      exact inv.fresh pid (by omega)
    · intro pid mid
      simp only [updFn]
      by_cases hc : pid = s.nextProjectId
      · rw [if_pos hc, hfresh0]
        have hw := (writeMilestones_fields defProject.milestones
          (zip3 amounts descrs deadlines) mid).1
        show (writeMilestones defProject.milestones (zip3 amounts descrs deadlines)
          mid).approvalCount = 0
        rw [hw]
        rfl
      · rw [if_neg hc]
        exact inv.approvals pid mid
    · intro pid mid
      simp only [updFn]
      by_cases hc : pid = s.nextProjectId
      · rw [if_pos hc, hfresh0]
        have hw := (writeMilestones_fields defProject.milestones
          (zip3 amounts descrs deadlines) mid).2.1
        left
        show (writeMilestones defProject.milestones (zip3 amounts descrs deadlines)
          mid).assignedReviewers = []
        rw [hw]
        rfl
      · rw [if_neg hc]
        exact inv.panel pid mid
    · intro pid mid
      simp only [updFn]
      by_cases hc : pid = s.nextProjectId
      · rw [if_pos hc, hfresh0]
        have hw := (writeMilestones_fields defProject.milestones
          (zip3 amounts descrs deadlines) mid).2.2
        have hPend : (writeMilestones defProject.milestones
            (zip3 amounts descrs deadlines) mid).status = MilestoneStatus.Pending := by
          rcases hw with hw | hw
          · rw [hw]; rfl
          · exact hw
        refine ⟨?_, ?_, ?_⟩ <;>
          · show (writeMilestones defProject.milestones (zip3 amounts descrs deadlines)
              mid).status ≠ _
            rw [hPend]
            simp
      · rw [if_neg hc]
        exact inv.statusOk pid mid
    · intro pid mid hcnt
      simp only [updFn] at hcnt ⊢
      by_cases hc : pid = s.nextProjectId
      · rw [if_pos hc, hfresh0]
        rw [if_pos hc] at hcnt
        have hcnt' : amounts.length ≤ mid := hcnt
        have hout := writeMilestones_out defProject.milestones
          (zip3 amounts descrs deadlines) mid (by omega)
        show (writeMilestones defProject.milestones (zip3 amounts descrs deadlines)
              mid).autoReleaseEnabled = false ∧
            (writeMilestones defProject.milestones (zip3 amounts descrs deadlines)
              mid).status ≠ MilestoneStatus.Released
        rw [hout]
        exact ⟨rfl, by simp [defProject, defMilestone]⟩
      · rw [if_neg hc]
        rw [if_neg hc] at hcnt
        exact inv.phantom pid mid hcnt
    · intro pid
      simp only [updFn]
      by_cases hc : pid = s.nextProjectId
      · rw [if_pos hc, hfresh0]
        rw [milestoneReleasedSum_eq]
        show (0 : Nat) = (Finset.range amounts.length).sum fun i =>
          relContrib (writeMilestones defProject.milestones
            (zip3 amounts descrs deadlines) i)
        symm
        refine Finset.sum_eq_zero ?_
        intro i _
        have hw := (writeMilestones_fields defProject.milestones
          (zip3 amounts descrs deadlines) i).2.2
        have hPend : (writeMilestones defProject.milestones
            (zip3 amounts descrs deadlines) i).status = MilestoneStatus.Pending := by
          rcases hw with hw | hw
          · rw [hw]; rfl
          · exact hw
        simp [relContrib, hPend]
      · rw [if_neg hc]
        exact inv.released pid
  case fundStep =>
    rename_i pid amt h
    simp only [fundProject] at h
    split at h
    · exact absurd h (by simp)
    injection h with h
    subst h
    exact inv
  case submitStep =>
    rename_i sender now pid mid dh hs h
    simp only [submitMilestone] at h
    split at h
    · exact absurd h (by simp)
    split at h
    · exact absurd h (by simp)
    rename_i hcre hstat
    have hcre' := not_not.mp hcre
    have hstat' := not_not.mp hstat
    injection h with hS
    subst hS
    have hlt : pid < s.nextProjectId := by
      by_contra hge
      have hd : s.projects pid = defProject := inv.fresh pid (by omega)
      rw [hd] at hcre'
      exact hs hcre'
    constructor
    · intro pid' hp
      have hp' : s.nextProjectId ≤ pid' := hp
      dsimp only
      rw [updFn_eval, if_neg (by omega)]
      exact inv.fresh pid' hp'
    · intro pid' mid'
      dsimp only
      rw [updFn_eval]
      by_cases hc : pid' = pid
      · rw [if_pos hc]
        dsimp only
        rw [updFn_eval]
        by_cases hm : mid' = mid
        · rw [if_pos hm]
          exact inv.approvals pid mid
        · rw [if_neg hm]
          exact inv.approvals pid mid'
      · rw [if_neg hc]
        exact inv.approvals pid' mid'
    · intro pid' mid'
      dsimp only
      rw [updFn_eval]
      by_cases hc : pid' = pid
      · rw [if_pos hc]
        dsimp only
        rw [updFn_eval]
        by_cases hm : mid' = mid
        · rw [if_pos hm]
          right
          rfl
        · rw [if_neg hm]
          exact inv.panel pid mid'
      · rw [if_neg hc]
        exact inv.panel pid' mid'
    · intro pid' mid'
      dsimp only
      rw [updFn_eval]
      by_cases hc : pid' = pid
      · rw [if_pos hc]
        dsimp only
        rw [updFn_eval]
        by_cases hm : mid' = mid
        · rw [if_pos hm]
          exact ⟨by simp, by simp, by simp⟩
        · rw [if_neg hm]
          exact inv.statusOk pid mid'
      · rw [if_neg hc]
        exact inv.statusOk pid' mid'
    · intro pid' mid' hcnt
      dsimp only at hcnt ⊢
      rw [updFn_eval] at hcnt ⊢
      by_cases hc : pid' = pid
      · rw [if_pos hc] at hcnt ⊢
        dsimp only at hcnt ⊢
        rw [updFn_eval]
        by_cases hm : mid' = mid
        · rw [if_pos hm]
          exact ⟨(inv.phantom pid mid (hm ▸ hcnt)).1, by simp⟩
        · rw [if_neg hm]
          exact inv.phantom pid mid' hcnt
      · rw [if_neg hc] at hcnt ⊢
        exact inv.phantom pid' mid' hcnt
    · intro pid'
      dsimp only
      rw [updFn_eval]
      by_cases hc : pid' = pid
      · rw [if_pos hc, milestoneReleasedSum_eq]
        dsimp only
        have hold : relContrib ((s.projects pid).milestones mid) = 0 := by
          simp [relContrib, hstat']
        by_cases hm : mid < (s.projects pid).milestoneCount
        · rw [sum_relContrib_update_zero _ _ _ _ hm hold]
          have hnew : relContrib { (s.projects pid).milestones mid with
              deliverableHash := dh
              status := MilestoneStatus.InReview
              submissionTime := now
              assignedReviewers := List.replicate MIN_REVIEWERS 0 } = 0 := by
            simp [relContrib]
          rw [hnew]
          have hrel := inv.released pid
          rw [milestoneReleasedSum_eq] at hrel
          omega
        · rw [sum_relContrib_update_out _ _ _ _ (by omega)]
          have hrel := inv.released pid
          rw [milestoneReleasedSum_eq] at hrel
          exact hrel
      · rw [if_neg hc]
        exact inv.released pid'
  case reviewStep =>
    rename_i sender pid mid ap c hs h
    simp only [reviewMilestone] at h
    split at h
    · exact absurd h (by simp)
    split at h
    · exact absurd h (by simp)
    split at h
    · exact absurd h (by simp)
    split at h
    · exact absurd h (by simp)
    split at h
    · exact absurd h (by simp)
    rename_i hrole hstake hstat hvoted hassigned
    have hmem := not_not.mp hassigned
    rcases inv.panel pid mid with hpanel | hpanel
    · rw [hpanel] at hmem
      simp at hmem
    · rw [hpanel] at hmem
      have := List.eq_of_mem_replicate hmem
      exact absurd this hs
  case releaseStep =>
    rename_i now pid mid outs h
    simp only [releaseMilestoneFunds] at h
    by_cases hA : ((s.projects pid).milestones mid).status = MilestoneStatus.Approved
    · exact absurd hA (inv.statusOk pid mid).1
    · rw [if_neg hA] at h
      by_cases hAuto : ((s.projects pid).milestones mid).autoReleaseEnabled = true ∧
          ((s.projects pid).milestones mid).autoReleaseTime < now ∧
          ((s.projects pid).milestones mid).status = MilestoneStatus.InReview
      · rw [if_pos hAuto] at h
        rw [if_neg (show ¬¬((true, ({ (s.projects pid).milestones mid with
            status := MilestoneStatus.Approved } : Milestone)).1 = true) from
            not_not_intro rfl)] at h
        rw [if_neg (show ¬(((true, ({ (s.projects pid).milestones mid with
            status := MilestoneStatus.Approved } : Milestone)).2.status =
            MilestoneStatus.Released)) by simp)] at h
        injection h with h
        injection h with hS hOuts
        subst hS
        have hlt : pid < s.nextProjectId := by
          by_contra hge
          have hd : s.projects pid = defProject := inv.fresh pid (by omega)
          rw [hd] at hAuto
          exact absurd hAuto.1 (by simp [defProject, defMilestone])
        have hmid : mid < (s.projects pid).milestoneCount := by
          by_contra hge
          have hph := (inv.phantom pid mid (by omega)).1
          rw [hph] at hAuto
          exact absurd hAuto.1 (by simp)
        constructor
        · intro pid' hp
          have hp' : s.nextProjectId ≤ pid' := hp
          dsimp only
          rw [updFn_eval, if_neg (by omega)]
          exact inv.fresh pid' hp'
        · intro pid' mid'
          dsimp only
          rw [updFn_eval]
          by_cases hc : pid' = pid
          · rw [if_pos hc]
            dsimp only
            rw [updFn_eval]
            by_cases hm : mid' = mid
            · rw [if_pos hm]
              exact inv.approvals pid mid
            · rw [if_neg hm]
              exact inv.approvals pid mid'
          · rw [if_neg hc]
            exact inv.approvals pid' mid'
        · intro pid' mid'
          dsimp only
          rw [updFn_eval]
          by_cases hc : pid' = pid
          · rw [if_pos hc]
            dsimp only
            rw [updFn_eval]
            by_cases hm : mid' = mid
            · rw [if_pos hm]
              exact inv.panel pid mid
            · rw [if_neg hm]
              exact inv.panel pid mid'
          · rw [if_neg hc]
            exact inv.panel pid' mid'
        · intro pid' mid'
          dsimp only
          rw [updFn_eval]
          by_cases hc : pid' = pid
          · rw [if_pos hc]
            dsimp only
            rw [updFn_eval]
            by_cases hm : mid' = mid
            · rw [if_pos hm]
              exact ⟨by simp, by simp, by simp⟩
            · rw [if_neg hm]
              exact inv.statusOk pid mid'
          · rw [if_neg hc]
            exact inv.statusOk pid' mid'
        · intro pid' mid' hcnt
          dsimp only at hcnt ⊢
          rw [updFn_eval] at hcnt ⊢
          by_cases hc : pid' = pid
          · rw [if_pos hc] at hcnt ⊢
            dsimp only at hcnt ⊢
            rw [updFn_eval]
            have hcnt' : (s.projects pid).milestoneCount ≤ mid' := hcnt
            have hm : ¬(mid' = mid) := by omega
            rw [if_neg hm]
            exact inv.phantom pid mid' hcnt'
          · rw [if_neg hc] at hcnt ⊢
            exact inv.phantom pid' mid' hcnt
        · intro pid'
          dsimp only
          rw [updFn_eval]
          by_cases hc : pid' = pid
          · rw [if_pos hc, milestoneReleasedSum_eq]
            dsimp only
            have hold : relContrib ((s.projects pid).milestones mid) = 0 := by
              simp [relContrib, hAuto.2.2]
            rw [sum_relContrib_update_zero _ _ _ _ hmid hold]
            have hnew : relContrib { (s.projects pid).milestones mid with
                status := MilestoneStatus.Released } =
                ((s.projects pid).milestones mid).fundingAmount := by
              simp [relContrib]
            rw [hnew]
            have hrel := inv.released pid
            rw [milestoneReleasedSum_eq] at hrel
            omega
          · rw [if_neg hc]
            exact inv.released pid'
      · rw [if_neg hAuto] at h
        exact absurd h (by simp)
  case stakeStep =>
    rename_i sender hs h
    simp only [stakeAsReviewer] at h
    split at h
    · exact absurd h (by simp)
    injection h with hS
    subst hS
    exact ⟨inv.fresh, inv.approvals, inv.panel, inv.statusOk, inv.phantom, inv.released⟩
  case rolesStep =>
    exact ⟨inv.fresh, inv.approvals, inv.panel, inv.statusOk, inv.phantom, inv.released⟩

lemma mfInv_reachable {s : MFState} (h : MFReachable s) : MFInv s := by
  induction h with
  | start tok treas => exact mfInv_init tok treas
  | next s s' _ st ih => exact mfInv_step ih st

/-! ### Correctness of the Newton integer square root -/

lemma two_mul_le_sq_add (a b : Nat) : 2 * a * b ≤ a * a + b * b := by
  zify
  nlinarith [sq_nonneg ((a : Int) - b)]

/-- One Newton step from any positive iterate stays at or above the exact
floor square root. -/
lemma newton_ge_sqrt (x w : Nat) (hw : 1 ≤ w) : Nat.sqrt x ≤ (x / w + w) / 2 := by
  by_contra hcon
  push_neg at hcon
  have h2 : x / w + w < 2 * Nat.sqrt x := by
    have := (Nat.div_lt_iff_lt_mul (by norm_num : 0 < 2)).mp hcon
    omega
  have e1 : w * (x / w) + x % w = x := Nat.div_add_mod x w
  have e2 : x % w < w := Nat.mod_lt x (by omega)
  have e3 : w * (x / w + w + 1) ≤ w * (2 * Nat.sqrt x) :=
    Nat.mul_le_mul_left w (by omega)
  have e4 : Nat.sqrt x * Nat.sqrt x ≤ x := Nat.sqrt_le x
  have e5 : 2 * Nat.sqrt x * w ≤ Nat.sqrt x * Nat.sqrt x + w * w :=
    two_mul_le_sq_add _ _
  have e3' : w * (x / w) + w * w + w ≤ 2 * Nat.sqrt x * w := by
    have hd : w * (x / w + w + 1) = w * (x / w) + w * w + w := by ring
    rw [hd] at e3
    calc w * (x / w) + w * w + w ≤ w * (2 * Nat.sqrt x) := e3
      _ = 2 * Nat.sqrt x * w := by ring
  omega

lemma sqrtLoop_newton (x : Nat) : ∀ w, 1 ≤ x → 1 ≤ w → Nat.sqrt x ≤ w →
    sqrtLoop x ((x / w + w) / 2) w = Nat.sqrt x := by
  intro w
  induction w using Nat.strong_induction_on with
  | _ w ih =>
    intro hx hw hsw
    have hz1 : Nat.sqrt x ≤ (x / w + w) / 2 := newton_ge_sqrt x w hw
    have hzpos : 1 ≤ (x / w + w) / 2 := by
      have hs1 : 1 ≤ Nat.sqrt x := by
        rw [Nat.le_sqrt]
        omega
      omega
    rw [sqrtLoop]
    split
    · rename_i hlt
      exact ih _ hlt hx hzpos hz1
    · rename_i hge
      push_neg at hge
      have hxw : w ≤ x / w := by
        have h2w := (Nat.le_div_iff_mul_le (by norm_num : 0 < 2)).mp hge
        omega
      have hw2 : w * w ≤ x := (Nat.le_div_iff_mul_le (by omega : 0 < w)).mp hxw
      have hle : w ≤ Nat.sqrt x := Nat.le_sqrt.mpr hw2
      omega

lemma integerSqrt_eq_sqrt (x : Nat) : integerSqrt x = Nat.sqrt x := by
  unfold integerSqrt
  split
  · rename_i h0
    subst h0
    exact Nat.sqrt_zero.symm
  · rename_i h0
    have hx : 1 ≤ x := by omega
    have hxx : (x + 1) / 2 = (x / x + x) / 2 := by
      rw [Nat.div_self (by omega : 0 < x), Nat.add_comm]
    rw [hxx]
    exact sqrtLoop_newton x x hx hx (Nat.sqrt_le_self x)

/-! ### Concrete executions

A small reachable history of each contract, used to evaluate the claims on
explicit inputs. -/

/-- MilestoneFunding deployed with stake token 5 and treasury 6. -/
def mfS0 : MFState := initMFState 5 6

/-- Project 1 created by address 1 at time 10 with milestone amounts
[100, 200] and deadlines [20, 30]. -/
def mfS1 : MFState :=
  (exGet (mfS0, 0) (createProject mfS0 1 10 "t" "d" 7 [100, 200] ["a", "b"] [20, 30])).1

/-- Milestone 0 of project 1 submitted for review at time 15. -/
def mfS2 : MFState := exGet mfS1 (submitMilestone mfS1 1 15 1 0 "Qm")

/-- Milestone 0 of project 1 released through the auto-release path at time
604822 (after deadline 20 + AUTO_RELEASE_DELAY). -/
def mfS3 : MFState :=
  (exGet (mfS2, []) (releaseMilestoneFunds mfS2 604822 1 0)).1

lemma mfS1_step : MFStep mfS0 mfS1 :=
  MFStep.createStep mfS0 mfS1 1 10 7 1 "t" "d" [100, 200] ["a", "b"] [20, 30]
    (by decide) rfl

lemma mfS2_step : MFStep mfS1 mfS2 :=
  MFStep.submitStep mfS1 mfS2 1 15 1 0 "Qm" (by decide) rfl

lemma mfS3_step : MFStep mfS2 mfS3 :=
  MFStep.releaseStep mfS2 mfS3 604822 1 0
    (exGet (mfS2, []) (releaseMilestoneFunds mfS2 604822 1 0)).2 rfl

lemma mfS2_reachable : MFReachable mfS2 :=
  MFReachable.next mfS1 mfS2
    (MFReachable.next mfS0 mfS1 (MFReachable.start 5 6) mfS1_step) mfS2_step

lemma mfS3_reachable : MFReachable mfS3 :=
  MFReachable.next mfS2 mfS3 mfS2_reachable mfS3_step

/-- QuadraticVoting deployed with admin 1. -/
def qvS0 : QVState := initQVState 1

/-- Round 1 started by the admin at time 10, duration 100, commit phase 50.
Its window is startTime 10, commitEndTime 60, endTime 110. -/
def qvS1 : QVState := exGet qvS0 (startVotingRound qvS0 1 10 100 50 0)

/-- Voter 7 commits the nonzero commitment 77 at time 20. -/
def qvS2 : QVState := exGet qvS0 (commitVote qvS1 7 20 77 true)

lemma qvS1_step : QVStep qvS0 qvS1 :=
  QVStep.startStep qvS0 qvS1 1 10 100 50 0 rfl

lemma qvS2_step : QVStep qvS1 qvS2 :=
  QVStep.commitStep qvS1 qvS2 7 20 77 true rfl

lemma qvS2_reachable : QVReachable qvS2 :=
  QVReachable.next qvS1 qvS2
    (QVReachable.next qvS0 qvS1 (QVReachable.start 1) qvS1_step) qvS2_step

/-- The paused contract: pause called by the admin right after deployment. -/
def qvPState : QVState := exGet qvS0 (pauseOp qvS0 1)

/-- Voter 7 commits the zero commitment 0 at time 20 of round 1. -/
def qvB : QVState := exGet qvS0 (commitVote qvS1 7 20 0 true)

/-- Voter 7 commits again, value 5, at time 30 of round 1: the zero sentinel
does not recognise the stored commitment 0, so this call succeeds too. -/
def qvC : QVState := exGet qvS0 (commitVote qvB 7 30 5 true)

/-- A hypothetical milestone in review with an assigned panel of the three
nonzero reviewers 1, 2, 3 (the shape quantified over by the quorum rule). -/
def c1Milestone : Milestone :=
  { defMilestone with
    fundingAmount := 1000
    status := MilestoneStatus.InReview
    assignedReviewers := [1, 2, 3] }

/-- A state holding project 1 with c1Milestone at index 0, reviewer 1 staked
and holding REVIEWER_ROLE. -/
def c1State : MFState :=
  { initMFState 0 0 with
    nextProjectId := 2
    projects := updFn (fun _ => defProject) 1
      { defProject with
        creator := 9
        active := true
        milestoneCount := 2
        milestones := updFn (fun _ => defMilestone) 0 c1Milestone }
    reviewerStakes := updFn (fun _ => defStake) 1 { defStake with active := true }
    hasReviewerRole := updFn (fun _ => false) 1 true }

/-- Helper for the releaseMilestoneFunds canRelease tuple: a (true, m)
result passes the canRelease require. -/
lemma pairResOk (m : Milestone) : ¬¬(((true, m) : Bool × Milestone).1 = true) :=
  not_not_intro rfl

/-- Helper: a (false, m) canRelease result fails the require. -/
lemma pairResFail (m : Milestone) : ¬(((false, m) : Bool × Milestone).1 = true) := by
  simp

/-- Helper: the milestone flipped to Approved on the auto-release path is
not Released, so the second require passes. -/
lemma flipNotReleased (m : Milestone) :
    ¬(((true, ({ m with status := MilestoneStatus.Approved } : Milestone)) :
        Bool × Milestone).2.status = MilestoneStatus.Released) := by
  simp

/-! ### The claims -/

/-- Claim C1.  The spec says reviewMilestone flips a milestone to Approved
exactly when approvalCount reaches ceil(panelSize * 66%), so a panel of 3
needs 2 approvals and 1 approval keeps it InReview.  The code computes
requiredApprovals = panelSize * APPROVAL_THRESHOLD / 100 with floor
division: for a panel of 3 this is 1, not 2, so a single approval by an
assigned reviewer immediately sets the status to Approved — contradicting
the quoted quorum rule and the source comment that 66% approval is
needed. -/
theorem reviewQuorumFloorBug :
    3 * APPROVAL_THRESHOLD / 100 = 1 ∧
    ¬(3 * APPROVAL_THRESHOLD / 100 = 2) ∧
    exIsOk (reviewMilestone c1State 1 1 0 true "lgtm") = true ∧
    ((exGet c1State (reviewMilestone c1State 1 1 0 true "lgtm")).projects 1
        |>.milestones 0).approvalCount = 1 ∧
    ((exGet c1State (reviewMilestone c1State 1 1 0 true "lgtm")).projects 1
        |>.milestones 0).status = MilestoneStatus.Approved := by
  decide

/-- Claim C2, counterexample.  The claim says createProject rejects funding
values [50, 30, 10] because they sum to 90, not 100.  The code performs no
sum check at all: with matching array lengths and future deadlines the call
succeeds and stores totalFunding = 90. -/
theorem createProjectSumNotChecked :
    exIsOk (createProject (initMFState 0 0) 1 1 "t" "d" 7 [50, 30, 10]
      ["a", "b", "c"] [2, 3, 4]) = true ∧
    ((exGet (initMFState 0 0, 0) (createProject (initMFState 0 0) 1 1 "t" "d" 7
        [50, 30, 10] ["a", "b", "c"] [2, 3, 4])).1.projects 1).totalFunding = 90 ∧
    ¬(50 + 30 + 10 = 100) := by
  decide

/-- Claim C2 (amended).  createProject validates only the milestone count
bounds 2..8, equal array lengths and future deadlines; the funding values
are arbitrary absolute amounts with no sum-to-100 requirement, and on
success the stored totalFunding is their plain sum (the allocated id being
nextProjectId). -/
theorem createProjectSpec (s : MFState) (sender now : Nat) (title descr : String)
    (tok : Nat) (amounts : List Nat) (descrs : List String) (deadlines : List Nat) :
    (exIsOk (createProject s sender now title descr tok amounts descrs deadlines) =
        true ↔
      (2 ≤ amounts.length ∧ amounts.length ≤ 8 ∧
        amounts.length = descrs.length ∧ descrs.length = deadlines.length ∧
        deadlines.all (fun d => now < d) = true)) ∧
    (∀ s' pid, createProject s sender now title descr tok amounts descrs deadlines =
        Except.ok (s', pid) →
      pid = s.nextProjectId ∧ (s'.projects pid).totalFunding = amounts.sum) := by
  constructor
  · constructor
    · intro hok
      unfold createProject at hok
      split at hok
      · exact absurd hok (by simp [exIsOk])
      split at hok
      · exact absurd hok (by simp [exIsOk])
      split at hok
      · exact absurd hok (by simp [exIsOk])
      split at hok
      · exact absurd hok (by simp [exIsOk])
      rename_i h1 h2 h3 h4
      obtain ⟨h3a, h3b⟩ := not_not.mp h3
      refine ⟨by omega, by omega, h3a, h3b, ?_⟩
      have h4' := not_not.mp h4
      simpa using h4'
    · rintro ⟨g1, g2, g3, g4, g5⟩
      unfold createProject
      rw [if_neg (by omega), if_neg (by omega),
        if_neg (not_not_intro ⟨g3, g4⟩), if_neg (not_not_intro (by simpa using g5))]
      rfl
  · intro s' pid h
    unfold createProject at h
    split at h
    · exact absurd h (by simp)
    split at h
    · exact absurd h (by simp)
    split at h
    · exact absurd h (by simp)
    split at h
    · exact absurd h (by simp)
    injection h with h
    injection h with hS hP
    refine ⟨hP.symm, ?_⟩
    subst hS
    rw [← hP]
    show (updFn s.projects s.nextProjectId _ s.nextProjectId).totalFunding =
      amounts.sum
    rw [updFn_eval, if_pos rfl]

/-- Claim C2 (amended), witness at the counterexample input. -/
theorem createProjectSpecWitness :
    (exIsOk (createProject (initMFState 0 0) 1 1 "t" "d" 7 [50, 30, 10]
        ["a", "b", "c"] [2, 3, 4]) = true ↔
      (2 ≤ [50, 30, 10].length ∧ [50, 30, 10].length ≤ 8 ∧
        [50, 30, 10].length = ["a", "b", "c"].length ∧
        ["a", "b", "c"].length = [2, 3, 4].length ∧
        [2, 3, 4].all (fun d => 1 < d) = true)) ∧
    (∀ s' pid, createProject (initMFState 0 0) 1 1 "t" "d" 7 [50, 30, 10]
        ["a", "b", "c"] [2, 3, 4] = Except.ok (s', pid) →
      pid = (initMFState 0 0).nextProjectId ∧
      (s'.projects pid).totalFunding = [50, 30, 10].sum) :=
  createProjectSpec (initMFState 0 0) 1 1 "t" "d" 7 [50, 30, 10]
    ["a", "b", "c"] [2, 3, 4]

/-- Claim C3.  Once a milestone is Released, any further
releaseMilestoneFunds on it fails (the status is neither Approved nor
InReview, so no release path opens and the transaction reverts before any
transfer), and in every reachable state releasedFunding equals the sum of
fundingAmount over the Released milestones. -/
theorem releaseExactlyOnce (s : MFState) (h : MFReachable s) :
    (∀ now pid mid,
      ((s.projects pid).milestones mid).status = MilestoneStatus.Released →
      releaseMilestoneFunds s now pid mid = Except.error MFError.cannotRelease) ∧
    (∀ pid, (s.projects pid).releasedFunding = milestoneReleasedSum (s.projects pid)) := by
  refine ⟨?_, (mfInv_reachable h).released⟩
  intro now pid mid hrel
  simp only [releaseMilestoneFunds]
  rw [hrel]
  rw [if_neg (by decide : ¬(MilestoneStatus.Released = MilestoneStatus.Approved))]
  rw [if_neg (show ¬(((s.projects pid).milestones mid).autoReleaseEnabled = true ∧
      ((s.projects pid).milestones mid).autoReleaseTime < now ∧
      MilestoneStatus.Released = MilestoneStatus.InReview) by simp)]
  rw [if_pos (show ¬((false, (s.projects pid).milestones mid).1 = true) by simp)]

/-- Claim C3, witness at the reachable state mfS3 in which milestone 0 of
project 1 has been released. -/
theorem releaseExactlyOnceWitness :
    (∀ now pid mid,
      ((mfS3.projects pid).milestones mid).status = MilestoneStatus.Released →
      releaseMilestoneFunds mfS3 now pid mid = Except.error MFError.cannotRelease) ∧
    (∀ pid, (mfS3.projects pid).releasedFunding =
      milestoneReleasedSum (mfS3.projects pid)) :=
  releaseExactlyOnce mfS3 mfS3_reachable

/-- Claim C4, counterexample.  The claim quantifies over every commitment
value the first call may have stored.  commitVote only treats a commitment
as existing when it is nonzero (bytes32(0) is the empty sentinel), so after
a first successful commitVote storing commitment 0, a second commitVote by
the same voter in the same round succeeds and overwrites the stored
commitment with 5 instead of failing with AlreadyVoted. -/
theorem commitVoteZeroCommitmentCex :
    commitVote qvS1 7 20 0 true = Except.ok qvB ∧
    (qvB.votes 1 7).commitment = 0 ∧
    commitVote qvB 7 30 5 true = Except.ok qvC ∧
    (qvC.votes 1 7).commitment = 5 :=
  ⟨rfl, rfl, rfl, rfl⟩

/-- Claim C4 (amended).  If the stored commitment of (currentRound, caller)
is nonzero, any further commitVote by that caller that passes the pause,
phase and eligibility guards fails with AlreadyVoted (and, the call
reverting, the stored commitment is unchanged); a stored commitment of zero
is indistinguishable from no commitment and can be overwritten. -/
theorem commitVoteSingleAmended (s : QVState) (sender now c : Nat) (eligible : Bool)
    (hp : s.paused = false)
    (h1 : (s.votingRounds s.currentRoundId).startTime ≤ now)
    (h2 : now ≤ (s.votingRounds s.currentRoundId).commitEndTime)
    (helig : eligible = true)
    (hcommit : ¬((s.votes s.currentRoundId sender).commitment = 0)) :
    commitVote s sender now c eligible = Except.error QVError.alreadyVoted := by
  simp only [commitVote]
  rw [if_neg (by rw [hp]; simp)]
  rw [if_neg (by omega)]
  rw [if_neg (not_not_intro helig)]
  rw [if_pos hcommit]

/-- Claim C4 (amended), witness: voter 7 already committed 77 in round 1. -/
theorem commitVoteSingleAmendedWitness :
    commitVote qvS2 7 30 5 true = Except.error QVError.alreadyVoted :=
  commitVoteSingleAmended qvS2 7 30 5 true rfl (by decide) (by decide) rfl (by decide)

/-- Claim C5, counterexample.  The claim says every state-mutating entry
point fails while paused.  startVotingRound carries no pause guard: with
the QuadraticVoting contract paused, the admin starts round 1 and the state
changes. -/
theorem pauseNotGlobalCex :
    qvPState.paused = true ∧
    exIsOk (startVotingRound qvPState 1 10 100 50 0) = true ∧
    (exGet qvPState (startVotingRound qvPState 1 10 100 50 0)).currentRoundId = 1 :=
  ⟨rfl, rfl, rfl⟩

/-- Claim C5 (amended).  Only commitVote and revealVote are guarded by the
pause flag: when it is set they fail with the pause error and no state
change; startVotingRound and finalizeRound carry only role guards, and the
MilestoneFunding contract has no pause flag at all. -/
theorem pauseBlocksCommitReveal (s : QVState) (h : s.paused = true) :
    (∀ sender now c elig,
      commitVote s sender now c elig = Except.error QVError.enforcedPause) ∧
    (∀ sender now pid vc ch,
      revealVote s sender now pid vc ch = Except.error QVError.enforcedPause) := by
  refine ⟨?_, ?_⟩
  · intro sender now c elig
    simp only [commitVote]
    rw [if_pos h]
  · intro sender now pid vc ch
    simp only [revealVote]
    rw [if_pos h]

/-- Claim C5 (amended), witness at the concrete paused state. -/
theorem pauseBlocksCommitRevealWitness :
    (∀ sender now c elig,
      commitVote qvPState sender now c elig = Except.error QVError.enforcedPause) ∧
    (∀ sender now pid vc ch,
      revealVote qvPState sender now pid vc ch = Except.error QVError.enforcedPause) :=
  pauseBlocksCommitReveal qvPState rfl

/-- Claim C6.  submitMilestone assigns new address[](MIN_REVIEWERS): a
panel of exactly MIN_REVIEWERS (2) zero addresses.  Hence, in every
reachable state, reviewMilestone by any nonzero caller fails (the
assigned-panel membership test cannot succeed), every milestone's
approvalCount is 0, and no reachable milestone has status Approved — the
quorum path never fires, so funds release only via the auto-release branch
of releaseMilestoneFunds. -/
theorem reviewPanelZeroInvariant (s : MFState) (h : MFReachable s) :
    (∀ sender now pid mid dh s',
      submitMilestone s sender now pid mid dh = Except.ok s' →
      ((s'.projects pid).milestones mid).assignedReviewers =
        List.replicate MIN_REVIEWERS 0 ∧
      ((s'.projects pid).milestones mid).assignedReviewers.length = MIN_REVIEWERS ∧
      ∀ a ∈ ((s'.projects pid).milestones mid).assignedReviewers, a = 0) ∧
    (∀ sender pid mid ap c, sender ≠ 0 →
      exIsOk (reviewMilestone s sender pid mid ap c) = false) ∧
    (∀ pid mid, ((s.projects pid).milestones mid).approvalCount = 0 ∧
      ((s.projects pid).milestones mid).status ≠ MilestoneStatus.Approved) := by
  refine ⟨?_, ?_, ?_⟩
  · intro sender now pid mid dh s' hsub
    simp only [submitMilestone] at hsub
    split at hsub
    · exact absurd hsub (by simp)
    split at hsub
    · exact absurd hsub (by simp)
    injection hsub with hS
    subst hS
    dsimp only
    rw [updFn_eval, if_pos rfl]
    dsimp only
    rw [updFn_eval, if_pos rfl]
    refine ⟨rfl, by simp, ?_⟩
    intro a ha
    exact (List.eq_of_mem_replicate ha)
  · intro sender pid mid ap c hs
    simp only [reviewMilestone]
    split
    · rfl
    split
    · rfl
    split
    · rfl
    split
    · rfl
    split
    · rfl
    rename_i hrole hstake hstat hvoted hassigned
    exfalso
    have hmem := not_not.mp hassigned
    rcases (mfInv_reachable h).panel pid mid with hp | hp
    · rw [hp] at hmem
      simp at hmem
    · rw [hp] at hmem
      exact hs (List.eq_of_mem_replicate hmem)
  · intro pid mid
    exact ⟨(mfInv_reachable h).approvals pid mid,
      ((mfInv_reachable h).statusOk pid mid).1⟩

/-- Claim C6, witness at the reachable state mfS2 whose milestone 0 of
project 1 is InReview with panel [0, 0]. -/
theorem reviewPanelZeroInvariantWitness :
    (∀ sender now pid mid dh s',
      submitMilestone mfS2 sender now pid mid dh = Except.ok s' →
      ((s'.projects pid).milestones mid).assignedReviewers =
        List.replicate MIN_REVIEWERS 0 ∧
      ((s'.projects pid).milestones mid).assignedReviewers.length = MIN_REVIEWERS ∧
      ∀ a ∈ ((s'.projects pid).milestones mid).assignedReviewers, a = 0) ∧
    (∀ sender pid mid ap c, sender ≠ 0 →
      exIsOk (reviewMilestone mfS2 sender pid mid ap c) = false) ∧
    (∀ pid mid, ((mfS2.projects pid).milestones mid).approvalCount = 0 ∧
      ((mfS2.projects pid).milestones mid).status ≠ MilestoneStatus.Approved) :=
  reviewPanelZeroInvariant mfS2 mfS2_reachable

/-- Claim C7.  With an otherwise valid call (unpaused, in the reveal
window, not yet revealed, matching commitment), revealVote fails with
InvalidVoteCount whenever voteCount = 0 or voteCount > MAX_VOTES_PER_PROPOSAL
(10) — covering 0, 11, 1000 — and in every reachable state every revealed
vote satisfies 1 ≤ votesRevealed ≤ 10, hence votesRevealed² ≤
CREDITS_PER_ROUND (100). -/
theorem revealVoteBounds (s : QVState) (h : QVReachable s) :
    (∀ sender now pid vc ch,
      s.paused = false →
      (s.votingRounds s.currentRoundId).commitEndTime ≤ now →
      now ≤ (s.votingRounds s.currentRoundId).endTime →
      (s.votes s.currentRoundId sender).revealed = false →
      ch = (s.votes s.currentRoundId sender).commitment →
      (vc = 0 ∨ MAX_VOTES_PER_PROPOSAL < vc) →
      revealVote s sender now pid vc ch = Except.error QVError.invalidVoteCount) ∧
    (∀ r v, (s.votes r v).revealed = true →
      1 ≤ (s.votes r v).votesRevealed ∧
      (s.votes r v).votesRevealed ≤ MAX_VOTES_PER_PROPOSAL ∧
      (s.votes r v).votesRevealed * (s.votes r v).votesRevealed ≤ CREDITS_PER_ROUND) := by
  refine ⟨?_, ?_⟩
  · intro sender now pid vc ch hp hph1 hph2 hrev hch hvc
    simp only [revealVote]
    rw [if_neg (by rw [hp]; simp)]
    rw [if_neg (by omega)]
    rw [if_neg (by rw [hrev]; simp)]
    rw [if_neg (not_not_intro hch)]
    rw [if_pos hvc]
  · intro r v hr
    obtain ⟨b1, b2⟩ := (qvInv_reachable h).revealedBounds r v hr
    refine ⟨b1, b2, ?_⟩
    have h10 : (s.votes r v).votesRevealed ≤ 10 := by
      simpa [MAX_VOTES_PER_PROPOSAL] using b2
    have hm := Nat.mul_le_mul h10 h10
    simpa [CREDITS_PER_ROUND] using hm

/-- Claim C7, witness at the reachable state qvS2 (round 1 running, voter 7
committed). -/
theorem revealVoteBoundsWitness :
    (∀ sender now pid vc ch,
      qvS2.paused = false →
      (qvS2.votingRounds qvS2.currentRoundId).commitEndTime ≤ now →
      now ≤ (qvS2.votingRounds qvS2.currentRoundId).endTime →
      (qvS2.votes qvS2.currentRoundId sender).revealed = false →
      ch = (qvS2.votes qvS2.currentRoundId sender).commitment →
      (vc = 0 ∨ MAX_VOTES_PER_PROPOSAL < vc) →
      revealVote qvS2 sender now pid vc ch = Except.error QVError.invalidVoteCount) ∧
    (∀ r v, (qvS2.votes r v).revealed = true →
      1 ≤ (qvS2.votes r v).votesRevealed ∧
      (qvS2.votes r v).votesRevealed ≤ MAX_VOTES_PER_PROPOSAL ∧
      (qvS2.votes r v).votesRevealed * (qvS2.votes r v).votesRevealed ≤
        CREDITS_PER_ROUND) :=
  revealVoteBounds qvS2 qvS2_reachable

/-- Claim C8.  The integer square root used for quadratic scoring is the
exact floor square root: integerSqrt x * integerSqrt x ≤ x <
(integerSqrt x + 1) * (integerSqrt x + 1) for every x, including 0.  The
Newton iteration terminates on every input: sqrtLoop is total, its measure
being the strictly decreasing iterate y. -/
theorem integerSqrtCorrect (x : Nat) :
    integerSqrt x * integerSqrt x ≤ x ∧
    x < (integerSqrt x + 1) * (integerSqrt x + 1) := by
  rw [integerSqrt_eq_sqrt]
  exact ⟨Nat.sqrt_le x, Nat.lt_succ_sqrt x⟩

/-- Claim C9.  For a milestone still InReview with auto-release enabled and
autoReleaseTime = D + AUTO_RELEASE_DELAY (as createProject sets it from
deadline D), releaseMilestoneFunds at time D + AUTO_RELEASE_DELAY + 1
succeeds and marks the milestone Released, while at time
D + AUTO_RELEASE_DELAY - 1 it fails with no state change. -/
theorem autoReleaseTiming (s : MFState) (pid mid D : Nat)
    (hst : ((s.projects pid).milestones mid).status = MilestoneStatus.InReview)
    (hen : ((s.projects pid).milestones mid).autoReleaseEnabled = true)
    (hti : ((s.projects pid).milestones mid).autoReleaseTime = D + AUTO_RELEASE_DELAY) :
    (∃ s' outs,
      releaseMilestoneFunds s (D + AUTO_RELEASE_DELAY + 1) pid mid =
        Except.ok (s', outs) ∧
      ((s'.projects pid).milestones mid).status = MilestoneStatus.Released) ∧
    releaseMilestoneFunds s (D + AUTO_RELEASE_DELAY - 1) pid mid =
      Except.error MFError.cannotRelease := by
  have hA : ¬(((s.projects pid).milestones mid).status = MilestoneStatus.Approved) := by
    rw [hst]
    simp
  constructor
  · simp only [releaseMilestoneFunds]
    rw [if_neg hA]
    have hAuto : ((s.projects pid).milestones mid).autoReleaseEnabled = true ∧
        ((s.projects pid).milestones mid).autoReleaseTime < D + AUTO_RELEASE_DELAY + 1 ∧
        ((s.projects pid).milestones mid).status = MilestoneStatus.InReview :=
      ⟨hen, by rw [hti]; omega, hst⟩
    rw [if_pos hAuto, if_neg (pairResOk _), if_neg (flipNotReleased _)]
    refine ⟨_, _, rfl, ?_⟩
    dsimp only
    rw [updFn_eval, if_pos rfl]
    dsimp only
    rw [updFn_eval, if_pos rfl]
  · simp only [releaseMilestoneFunds]
    rw [if_neg hA]
    have hAuto2 : ¬(((s.projects pid).milestones mid).autoReleaseEnabled = true ∧
        ((s.projects pid).milestones mid).autoReleaseTime < D + AUTO_RELEASE_DELAY - 1 ∧
        ((s.projects pid).milestones mid).status = MilestoneStatus.InReview) := by
      rintro ⟨_, hlt, _⟩
      rw [hti] at hlt
      omega
    rw [if_neg hAuto2, if_pos (pairResFail _)]

/-- Claim C9, witness at the reachable state mfS2: milestone 0 of project 1
is InReview with deadline 20 and autoReleaseTime 20 + AUTO_RELEASE_DELAY. -/
theorem autoReleaseTimingWitness :
    (∃ s' outs,
      releaseMilestoneFunds mfS2 (20 + AUTO_RELEASE_DELAY + 1) 1 0 =
        Except.ok (s', outs) ∧
      ((s'.projects 1).milestones 0).status = MilestoneStatus.Released) ∧
    releaseMilestoneFunds mfS2 (20 + AUTO_RELEASE_DELAY - 1) 1 0 =
      Except.error MFError.cannotRelease :=
  autoReleaseTiming mfS2 1 0 20 (by decide) (by decide) (by decide)

/-- Claim C10.  startVotingRound fails whenever a round exists (id ≠ 0)
that is not finalized; on success the new round id is the previous id + 1
and every other entry of the round table is untouched; and in every
reachable state every round older than the current one is finalized, so at
most one allocated round is ever non-finalized. -/
theorem singleActiveRound (s : QVState) (h : QVReachable s) :
    (∀ sender now dur cdur root,
      ¬(s.currentRoundId = 0) →
      (s.votingRounds s.currentRoundId).finalized = false →
      exIsOk (startVotingRound s sender now dur cdur root) = false) ∧
    (∀ sender now dur cdur root s',
      startVotingRound s sender now dur cdur root = Except.ok s' →
      s'.currentRoundId = s.currentRoundId + 1 ∧
      ∀ id, ¬(id = s.currentRoundId + 1) → s'.votingRounds id = s.votingRounds id) ∧
    (∀ id, 1 ≤ id → id < s.currentRoundId → (s.votingRounds id).finalized = true) := by
  refine ⟨?_, ?_, (qvInv_reachable h).priorFinalized⟩
  · intro sender now dur cdur root h0 hf
    simp only [startVotingRound]
    split
    · rfl
    split
    · rfl
    rename_i hrole hguard
    exfalso
    rcases not_not.mp hguard with hg | hg
    · exact h0 hg
    · rw [hf] at hg
      exact absurd hg (by simp)
  · intro sender now dur cdur root s' hok
    simp only [startVotingRound] at hok
    split at hok
    · exact absurd hok (by simp)
    split at hok
    · exact absurd hok (by simp)
    injection hok with hok
    subst hok
    refine ⟨rfl, ?_⟩
    intro id hid
    dsimp only
    rw [updFn_eval, if_neg hid]

/-- Claim C10, witness at the reachable state qvS2 (round 1 current). -/
theorem singleActiveRoundWitness :
    (∀ sender now dur cdur root,
      ¬(qvS2.currentRoundId = 0) →
      (qvS2.votingRounds qvS2.currentRoundId).finalized = false →
      exIsOk (startVotingRound qvS2 sender now dur cdur root) = false) ∧
    (∀ sender now dur cdur root s',
      startVotingRound qvS2 sender now dur cdur root = Except.ok s' →
      s'.currentRoundId = qvS2.currentRoundId + 1 ∧
      ∀ id, ¬(id = qvS2.currentRoundId + 1) →
        s'.votingRounds id = qvS2.votingRounds id) ∧
    (∀ id, 1 ≤ id → id < qvS2.currentRoundId →
      (qvS2.votingRounds id).finalized = true) :=
  singleActiveRound qvS2 qvS2_reachable

end VeriFund
